import Mathlib

/-!
# Verification of the confluence-dumper traversal / naming / rewriting engine

Shallow embedding of `src/html_dumper.py` and `src/page_dumper.py`.

External collaborators (HTTP transport, the lxml markup parser, the template
renderer and the `settings` module) are abstracted: the remote service is a
tree-shaped value, a page body is either the empty string, an unparsable raw
string, or a parsed tree abstracted to its list of anchor elements (the only
part of the tree the code inspects or modifies), and warnings are counted
rather than printed.  The helper module `utils.py` is not part of the sources,
so its three pure string helpers are modelled from the spec (marked below).
-/

namespace ConfluenceDumper

/-! ## List-level string utilities

Python string operations (`in`, `split`, `rsplit`) are embedded as executable
functions over `List Char`. -/

/-- `startsWithL pat s` is true iff `pat` is an initial segment of `s`. -/
def startsWithL : List Char → List Char → Bool
  | [], _ => true
  | _ :: _, [] => false
  | p :: ps, c :: cs => p == c && startsWithL ps cs

/-- Split at the first occurrence of `pat`: returns the part before and the
part after the first occurrence, or `none` when `pat` does not occur.
(For the empty input list no occurrence is reported; all patterns used in the
embedding are nonempty.) -/
def splitFirst (pat : List Char) : List Char → Option (List Char × List Char)
  | [] => none
  | c :: rest =>
    if startsWithL pat (c :: rest) then some ([], (c :: rest).drop pat.length)
    else
      match splitFirst pat rest with
      | some (b, a) => some (c :: b, a)
      | none => none

/-- Fuelled worker for `splitOnL` (fuel keeps the recursion structural, so the
kernel can evaluate it; `s.length + 1` fuel always suffices). -/
def splitOnLFuel : Nat → List Char → List Char → List (List Char)
  | 0, _, s => [s]
  | fuel + 1, pat, s =>
    match splitFirst pat s with
    | none => [s]
    | some (b, a) => b :: splitOnLFuel fuel pat a

/-- All-occurrences split, mirroring Python's `str.split(sep)` for a nonempty
separator. -/
def splitOnL (pat s : List Char) : List (List Char) :=
  splitOnLFuel (s.length + 1) pat s

/-- Python `sub in s` (substring containment), embedded over strings. -/
def containsSubstr (s pat : String) : Bool :=
  (splitFirst pat.data s.data).isSome

/-- Python `s.split(sep)` over strings. -/
def splitOnStr (s pat : String) : List String :=
  (splitOnL pat.data s.data).map (fun l => String.mk l)

/-- Python `s.rsplit('.', 1)` under the guard that `s` contains a dot:
the part before and after the last `'.'`. -/
def rsplit_dot (s : String) : String × String :=
  let r := s.data.reverse
  (String.mk (((r.dropWhile (fun c => c != '.')).drop 1).reverse),
   String.mk ((r.takeWhile (fun c => c != '.')).reverse))

/-! ## Spec-modelled `utils` helpers -/

/-- The characters the sanitizer rewrites. -/
def illegalChars : List Char := ['\\', '/', ':', '*', '?', '"', '<', '>', '|']

/-- Per-character sanitization step. -/
def sanChar (c : Char) : Char :=
  if c ∈ illegalChars then '_' else c

/-- Modelled from the spec: `utils.sanitize_for_filename` is not under `src/`.
Per §4.1 it turns a title into a filesystem-safe name by escaping characters
invalid on common file systems; each such character is replaced by `'_'`. -/
def sanitize_for_filename (s : String) : String :=
  String.mk (s.data.map sanChar)

/-- Hexadecimal digit characters (uppercase, as produced by percent-encoding). -/
def hexDigitChar : Nat → Char
  | 0 => '0' | 1 => '1' | 2 => '2' | 3 => '3' | 4 => '4' | 5 => '5' | 6 => '6'
  | 7 => '7' | 8 => '8' | 9 => '9' | 10 => 'A' | 11 => 'B' | 12 => 'C'
  | 13 => 'D' | 14 => 'E' | 15 => 'F' | _ => '0'

/-- Value of a hexadecimal digit character, or `none`
(code points: `0`–`9` are 48–57, `A`–`F` are 65–70, `a`–`f` are 97–102). -/
def hexVal (c : Char) : Option Nat :=
  let v := c.toNat
  if 48 ≤ v ∧ v ≤ 57 then some (v - 48)
  else if 65 ≤ v ∧ v ≤ 70 then some (v - 55)
  else if 97 ≤ v ∧ v ≤ 102 then some (v - 87)
  else none

/-- Characters a percent-encoder leaves untouched: alphanumerics, `_.-~`
and the path separator `/`. -/
def safeChar (c : Char) : Bool :=
  c.isAlphanum || c == '_' || c == '.' || c == '-' || c == '~' || c == '/'

/-- Percent-encoding of one character (ASCII model: two hex digits of the
code point). -/
def encode_char (c : Char) : String :=
  if safeChar c then String.singleton c
  else String.mk ['%', hexDigitChar (c.toNat / 16 % 16), hexDigitChar (c.toNat % 16)]

/-- Worker for `encode_url` over the character list. -/
def encodeChars : List Char → String
  | [] => ""
  | c :: rest => encode_char c ++ encodeChars rest

/-- Modelled from the spec: `utils.encode_url` is not under `src/`.
Per §4.2 it percent-encodes a local file name (ASCII model of `urllib.quote`
with the default safe character `/`). -/
def encode_url (s : String) : String :=
  encodeChars s.data

/-- Worker for `decode_url` over the character list. -/
def decodeChars : List Char → List Char
  | [] => []
  | '%' :: a :: b :: rest =>
    match hexVal a, hexVal b with
    | some x, some y => Char.ofNat (16 * x + y) :: decodeChars rest
    | _, _ => '%' :: decodeChars (a :: b :: rest)
  | c :: rest => c :: decodeChars rest

/-- Modelled from the spec: `utils.decode_url` is not under `src/`.
Per §4.2 it percent-decodes a URL path segment (model of `urllib.unquote`):
every `%XY` with two hex digits becomes the character with that code. -/
def decode_url (s : String) : String :=
  String.mk (decodeChars s.data)

/-- Python `s.replace('+', ' ')` (single-character replacement). -/
def replace_plus_with_space (s : String) : String :=
  String.mk (s.data.map (fun c => if c == '+' then ' ' else c))

/-! ## The naming scope and the Name Allocator (`provide_unique_file_name`) -/

/-- Association-list lookup (Python dict read; later insertions shadow
earlier ones, so consing an updated binding to the front is faithful). -/
def alLookup {α : Type} : List (String × α) → String → Option α
  | [], _ => none
  | (k, v) :: rest, key => if k = key then some v else alLookup rest key

/-- One naming scope: the duplicate counter (`page_duplicate_file_names`,
sanitized base name ↦ number of prior collisions) and the memoization map
(`page_file_matching`, title ↦ assigned file name). -/
structure Scope where
  duplicate_file_names : List (String × Nat)
  file_matching : List (String × String)
deriving DecidableEq

/-- The empty naming scope (both dicts empty). -/
def Scope.empty : Scope := ⟨[], []⟩

/-- Python truthiness of an optional string (`None` and `""` are falsy). -/
def optTruthy : Option String → Bool
  | none => false
  | some s => s ≠ ""

/-- Embedding of `provide_unique_file_name` (`src/html_dumper.py:32-61`).
Returns the file name together with the updated scope. -/
def provide_unique_file_name (scope : Scope) (file_title : String)
    (is_folder : Bool) (explicit_file_extension : Option String) :
    String × Scope :=
  match alLookup scope.file_matching file_title with
  | some file_name => (file_name, scope)
  | none =>
    let sanitized := sanitize_for_filename file_title
    let split :=
      if is_folder then (sanitized, (none : Option String))
      else if optTruthy explicit_file_extension then (sanitized, explicit_file_extension)
      else if sanitized.data.contains '.' then
        let be := rsplit_dot sanitized
        (be.1, some be.2)
      else (sanitized, none)
    let stemExt :=
      match alLookup scope.duplicate_file_names split.1 with
      | some c =>
        (split.1 ++ "_" ++ toString (c + 1), (split.1, c + 1) :: scope.duplicate_file_names)
      | none => (split.1, (split.1, 0) :: scope.duplicate_file_names)
    let final :=
      if optTruthy split.2 then stemExt.1 ++ "." ++ split.2.getD "" else stemExt.1
    (final, ⟨stemExt.2, (file_title, final) :: scope.file_matching⟩)

/-! ## The Link Rewriter (`handle_html_references`) -/

/-- A hyperlink element of the parsed page body: its `href` and its optional
`class` attribute (the only attributes the code inspects). -/
structure Anchor where
  href : String
  cls : Option String
deriving DecidableEq

/-- A page body as seen by `handle_html_references`: the empty string, a
non-parsable raw string (lxml raises `XMLSyntaxError`), or a parsed tree
abstracted to its list of anchor elements. -/
inductive ContentBody where
  | empty
  | unparsable (raw : String)
  | parsed (anchors : List Anchor)
deriving DecidableEq

/-- The `"/display/"` marker of title-based links. -/
def display_marker : String := "/display/"

/-- The marker of id-based links. -/
def pageid_marker : String := "/pages/viewpage.action?pageId="

/-- Python `if not link_element.get('class')`: true when the class attribute
is absent or the empty string. -/
def classAbsent (a : Anchor) : Bool :=
  match a.cls with
  | none => true
  | some c => c = ""

/-- `href.split('/')[4]`, falling back to index 3 on `IndexError`
(`src/html_dumper.py:86-89`); out-of-claim short inputs default to `""`. -/
def getDisplayTitleSegment (href : String) : String :=
  let parts := splitOnStr href "/"
  if 4 < parts.length then parts.getD 4 "" else parts.getD 3 ""

/-- First rewriting pass, one anchor (`src/html_dumper.py:84-95`): a link
whose target contains `"/display/"` and that has no class attribute gets its
title segment extracted, `'+'` replaced by spaces, percent-decoded, and its
href replaced by the percent-encoded allocator name for that title with
explicit extension `"html"`. -/
def rewriteDisplayAnchor (a : Anchor) (scope : Scope) : Anchor × Scope :=
  if containsSubstr a.href display_marker && classAbsent a then
    let page_title := replace_plus_with_space (getDisplayTitleSegment a.href)
    let decoded_page_title := decode_url page_title
    let r := provide_unique_file_name scope decoded_page_title false (some "html")
    (Anchor.mk (encode_url r.1) a.cls, r.2)
  else (a, scope)

/-- First rewriting pass over the whole anchor list, threading the scope. -/
def rewriteDisplayAnchors : List Anchor → Scope → List Anchor × Scope
  | [], scope => ([], scope)
  | a :: rest, scope =>
    let r := rewriteDisplayAnchor a scope
    let rs := rewriteDisplayAnchors rest r.2
    (r.1 :: rs.1, rs.2)

/-- Second rewriting pass, one anchor (`src/html_dumper.py:98-103`): a link
whose target contains the id marker and that has no class attribute gets the
part after the marker as page id and its href replaced by the percent-encoded
`sanitize(id) + ".html"`; the Name Allocator is not consulted. -/
def rewritePageIdAnchor (a : Anchor) : Anchor :=
  if containsSubstr a.href pageid_marker && classAbsent a then
    let page_id := (splitOnStr a.href pageid_marker).getD 1 ""
    let offline_link := sanitize_for_filename page_id ++ ".html"
    Anchor.mk (encode_url offline_link) a.cls
  else a

/-- Embedding of `handle_html_references` (`src/html_dumper.py:64-105`).
Returns the resulting body, the updated scope, and the number of warnings
emitted. -/
def handle_html_references (html_content : ContentBody) (scope : Scope) :
    ContentBody × Scope × Nat :=
  match html_content with
  | .empty => (.empty, scope, 0)
  | .unparsable raw => (.unparsable raw, scope, 1)
  | .parsed anchors =>
    let pass1 := rewriteDisplayAnchors anchors scope
    (.parsed (pass1.1.map rewritePageIdAnchor), pass1.2, 0)

/-! ## The Tree Walker (`fetch_page_recursively`) -/

/-- A node of the remote content tree as the walker observes it: its id,
title, body, whether its detail fetch succeeds (`ok = false` models a
`ConfluenceException` from the transport), and its children in
service-returned order (the paginated child listing flattened). -/
inductive RemotePage where
  | mk (pid : String) (title : String) (body : ContentBody) (ok : Bool)
       (children : List RemotePage)

/-- Whether the detail fetch of this node succeeds. -/
def RemotePage.ok : RemotePage → Bool
  | .mk _ _ _ o _ => o

/-- The per-node record assembled by the walker
(`path_collection` in `src/html_dumper.py:143`). -/
inductive PathEntry where
  | mk (file_path : String) (page_title : String) (child_pages : List PathEntry)

/-- The allocated primary file path of a Path Entry. -/
def PathEntry.file_path : PathEntry → String
  | .mk f _ _ => f

/-- The title of a Path Entry. -/
def PathEntry.page_title : PathEntry → String
  | .mk _ t _ => t

/-- The ordered child entries of a Path Entry. -/
def PathEntry.child_pages : PathEntry → List PathEntry
  | .mk _ _ c => c

/-- One file handed to the external Renderer: target path and document title. -/
structure FileWrite where
  path : String
  title : String
deriving DecidableEq

/-- Walker state: the naming scope plus the files written so far. -/
structure WalkerState where
  scope : Scope
  written : List FileWrite
deriving DecidableEq

mutual
/-- Embedding of `fetch_page_recursively` (`src/html_dumper.py:108-185`).
On a transport error for the node itself it returns `none` and leaves the
state untouched; otherwise it allocates the primary name, rewrites the body,
writes the primary and the `<id>.html` forward file, recurses into the
children and returns the assembled Path Entry. -/
def fetch_page_recursively (p : RemotePage) (folder_path : String) (depth : Nat)
    (st : WalkerState) : Option PathEntry × WalkerState :=
  match p with
  | .mk pid title body ok children =>
    if ok then
      let r := provide_unique_file_name st.scope title false (some "html")
      let h := handle_html_references body r.2
      let st2 : WalkerState :=
        ⟨h.2.1,
         st.written ++
           [⟨folder_path ++ "/" ++ r.1, title⟩,
            ⟨folder_path ++ "/" ++ pid ++ ".html", "Forward to page " ++ title⟩]⟩
      let rc := fetch_children children folder_path (depth + 1) st2
      (some (.mk r.1 title rc.1), rc.2)
    else (none, st)

/-- The child loop of `fetch_page_recursively` (`src/html_dumper.py:169-174`):
recurse per child in order and append the Path Entry when one was returned. -/
def fetch_children (cs : List RemotePage) (folder_path : String) (depth : Nat)
    (st : WalkerState) : List PathEntry × WalkerState :=
  match cs with
  | [] => ([], st)
  | c :: rest =>
    let r := fetch_page_recursively c folder_path depth st
    let rs := fetch_children rest folder_path depth r.2
    match r.1 with
    | some e => (e :: rs.1, rs.2)
    | none => (rs.1, rs.2)
end

/-! ## The Index Builder (`create_html_index`) -/

mutual
/-- Embedding of `create_html_index` (`src/html_dumper.py:188-206`). -/
def create_html_index (e : PathEntry) : String :=
  match e with
  | .mk file_path page_title child_pages =>
    let fp := encode_url file_path
    let base := "<a href=\"" ++ sanitize_for_filename fp ++ "\">" ++ page_title ++ "</a>"
    if 0 < child_pages.length then
      base ++ "<ul>\n" ++ create_html_index_children child_pages ++ "</ul>\n"
    else base

/-- The child loop of `create_html_index` (`src/html_dumper.py:202-203`). -/
def create_html_index_children : List PathEntry → String
  | [] => ""
  | c :: rest => "\t<li>" ++ create_html_index c ++ "</li>\n" ++ create_html_index_children rest
end

/-! ## The id-only dumper (`fetch_page_ids_recursively`) -/

/-- A node of the remote tree as `page_dumper.py` observes it: id, whether
its fetch succeeds, children in service order (pagination flattened). -/
inductive IdPage where
  | mk (pid : String) (ok : Bool) (children : List IdPage)

/-- Whether the fetch of this node succeeds. -/
def IdPage.ok : IdPage → Bool
  | .mk _ o _ => o

mutual
/-- Embedding of `fetch_page_ids_recursively` (`src/page_dumper.py:24-64`).
A transport error for the requested page returns the empty list. -/
def fetch_page_ids_recursively (p : IdPage) (depth : Nat) : List String :=
  match p with
  | .mk pid ok children =>
    if ok then pid :: fetch_ids_children children (depth + 1)
    else []

/-- The child loop of `fetch_page_ids_recursively`
(`src/page_dumper.py:49-51`): `page_ids.extend(...)` per child in order. -/
def fetch_ids_children : List IdPage → Nat → List String
  | [], _ => []
  | c :: rest, depth =>
    fetch_page_ids_recursively c depth ++ fetch_ids_children rest depth
end

/-! ## Theorems -/

/-- C1: the claim states that in one naming scope the file names returned by
`provide_unique_file_name` for distinct titles are pairwise distinct (any mix
of `is_folder`/`explicit_file_extension` arguments).  The code violates this:
with the three distinct titles `"a_1"`, `"a.x"`, `"a"` allocated in that
order with default arguments, the extension splitting registers base `"a"`
while title `"a_1"` already owns the name `"a_1"`, so the third allocation
suffixes `"a"` into `"a_1"` — the same file name the first title received.
This theorem evaluates the code at that failing input. -/
theorem allocator_duplicate_names :
    ("a_1" ≠ "a" ∧ "a_1" ≠ "a.x" ∧ "a.x" ≠ "a") ∧
    (provide_unique_file_name Scope.empty "a_1" false none).1 = "a_1" ∧
    (provide_unique_file_name (provide_unique_file_name Scope.empty "a_1" false none).2
        "a.x" false none).1 = "a.x" ∧
    (provide_unique_file_name
        (provide_unique_file_name (provide_unique_file_name Scope.empty "a_1" false none).2
          "a.x" false none).2 "a" false none).1 = "a_1" := by
  decide

/-- C3: calling the Name Allocator twice with the same title within one scope
returns the identical file name both times, even when the two calls pass
different `is_folder` or `explicit_file_extension` arguments: the title is the
sole memoization key and the first-assigned name wins. -/
theorem allocator_memoizes_title (s : Scope) (t : String) (f1 f2 : Bool)
    (e1 e2 : Option String) :
    (provide_unique_file_name (provide_unique_file_name s t f1 e1).2 t f2 e2).1 =
      (provide_unique_file_name s t f1 e1).1 := by
  cases h : alLookup s.file_matching t with
  | some v => simp [provide_unique_file_name, h]
  | none => simp [provide_unique_file_name, h, alLookup]

/-- C6: if the Link Rewriter cannot parse a non-empty page body as markup, it
emits exactly one warning and returns the body unchanged (byte-identical),
and — the naming scope being returned untouched — this failure does not
affect the export of any other node. -/
theorem rewriter_unparsable_body (raw : String) (s : Scope) :
    handle_html_references (.unparsable raw) s = (.unparsable raw, s, 1) := rfl

/-- C9: calling the Link Rewriter with an empty body returns the empty string
immediately, without attempting to parse the body and without emitting any
warning. -/
theorem rewriter_empty_body (s : Scope) :
    handle_html_references .empty s = (.empty, s, 0) := rfl

/-- C7: when two distinct titles in one scope sanitize to the same base name
(no extension in play: the base contains no dot and the calls use default
arguments), the first-allocated title receives the plain base name and the
second receives the base with suffix `"_1"`, in first-seen order. -/
theorem allocator_collision_suffix (t1 t2 b : String) (hne : t1 ≠ t2)
    (h1 : sanitize_for_filename t1 = b) (h2 : sanitize_for_filename t2 = b)
    (hdot : b.data.contains '.' = false) :
    (provide_unique_file_name Scope.empty t1 false none).1 = b ∧
    (provide_unique_file_name (provide_unique_file_name Scope.empty t1 false none).2
        t2 false none).1 = b ++ "_1" := by
  have hts : (toString (0 + 1) : String) = "1" := rfl
  have hdot' : ¬ ('.' ∈ b.data) := by simpa using hdot
  constructor
  · simp [provide_unique_file_name, Scope.empty, alLookup, h1, optTruthy, hdot']
  · simp [provide_unique_file_name, Scope.empty, alLookup, h1, h2, optTruthy, hdot',
      hne, Ne.symm hne, hts, String.append_assoc]

/-- Witness for C7 at the spec's own example: `"A/B"` and `"A:B"` both
sanitize to `"A_B"` and receive `"A_B"` and `"A_B_1"` respectively. -/
theorem allocator_collision_suffix_witness :
    (provide_unique_file_name Scope.empty "A/B" false none).1 = "A_B" ∧
    (provide_unique_file_name (provide_unique_file_name Scope.empty "A/B" false none).2
        "A:B" false none).1 = "A_B" ++ "_1" :=
  allocator_collision_suffix "A/B" "A:B" "A_B" (by decide) (by decide) (by decide) (by decide)

/-! ### The Tree Walker prunes failed children (C2) -/

/-- A node whose detail fetch fails contributes nothing: no Path Entry and an
untouched walker state (`src/html_dumper.py:183-185`). -/
theorem fetch_page_fail (p : RemotePage) (hp : p.ok = false) (f : String) (d : Nat)
    (st : WalkerState) : fetch_page_recursively p f d st = (none, st) := by
  cases p with
  | mk pid title body ok children =>
    simp only [RemotePage.ok] at hp
    simp [fetch_page_recursively, hp]

/-- Dropping a failed child from the child list does not change the child
loop's result. -/
theorem fetch_children_skip (bad : RemotePage) (hbad : bad.ok = false)
    (pre post : List RemotePage) (f : String) (d : Nat) (st : WalkerState) :
    fetch_children (pre ++ bad :: post) f d st = fetch_children (pre ++ post) f d st := by
  induction pre generalizing st with
  | nil => simp [fetch_children, fetch_page_fail bad hbad]
  | cons c rest ih => simp [fetch_children, ih]

/-- C2: if fetching a child node fails with a transport error, the recursive
walker returns no Path Entry for that child and leaves the state untouched,
the parent appends nothing for it, the parent's remaining children are still
processed in order (the run is identical to one without the failed child),
and the parent's own Path Entry is still returned. -/
theorem walker_prunes_failed_child (pid title : String) (body : ContentBody)
    (pre post : List RemotePage) (bad : RemotePage) (folder : String) (d : Nat)
    (st : WalkerState) (hbad : bad.ok = false) :
    (∀ st', fetch_page_recursively bad folder (d + 1) st' = (none, st')) ∧
    (fetch_page_recursively (.mk pid title body true (pre ++ bad :: post))
        folder d st).1.isSome = true ∧
    fetch_page_recursively (.mk pid title body true (pre ++ bad :: post)) folder d st =
      fetch_page_recursively (.mk pid title body true (pre ++ post)) folder d st := by
  refine ⟨fun st' => fetch_page_fail bad hbad folder (d + 1) st', ?_, ?_⟩
  · simp [fetch_page_recursively]
  · simp [fetch_page_recursively, fetch_children_skip bad hbad]

/-- Witness for C2: a root with three children whose middle child fails. -/
theorem walker_prunes_failed_child_witness :
    (∀ st', fetch_page_recursively (.mk "3" "C" .empty false []) "out" 1 st' = (none, st')) ∧
    (fetch_page_recursively
        (.mk "1" "Root" .empty true
          ([RemotePage.mk "2" "A" .empty true []] ++ RemotePage.mk "3" "C" .empty false [] ::
            [RemotePage.mk "4" "B" .empty true []])) "out" 0
        ⟨Scope.empty, []⟩).1.isSome = true ∧
    fetch_page_recursively
        (.mk "1" "Root" .empty true
          ([RemotePage.mk "2" "A" .empty true []] ++ RemotePage.mk "3" "C" .empty false [] ::
            [RemotePage.mk "4" "B" .empty true []])) "out" 0 ⟨Scope.empty, []⟩ =
      fetch_page_recursively
        (.mk "1" "Root" .empty true
          ([RemotePage.mk "2" "A" .empty true []] ++ [RemotePage.mk "4" "B" .empty true []]))
        "out" 0 ⟨Scope.empty, []⟩ :=
  walker_prunes_failed_child "1" "Root" .empty [RemotePage.mk "2" "A" .empty true []]
    [RemotePage.mk "4" "B" .empty true []] (RemotePage.mk "3" "C" .empty false []) "out" 0
    ⟨Scope.empty, []⟩ rfl

/-! ### The id-only dumper returns a pre-order listing (C10) -/

mutual
/-- Modelled from claim C10's words: the requested page id followed by the
ids of all descendant pages in depth-first pre-order, children in
service-returned order. -/
def IdPage.preorder : IdPage → List String
  | .mk pid _ children => pid :: preorderChildren children

/-- Pre-order listings of a list of subtrees, concatenated in order. -/
def preorderChildren : List IdPage → List String
  | [] => []
  | c :: rest => c.preorder ++ preorderChildren rest
end

mutual
/-- No transport error occurs anywhere in the subtree. -/
def IdPage.allOk : IdPage → Bool
  | .mk _ ok children => ok && allOkChildren children

/-- No transport error occurs in any subtree of the list. -/
def allOkChildren : List IdPage → Bool
  | [] => true
  | c :: rest => c.allOk && allOkChildren rest
end

mutual
/-- On an error-free subtree the id dumper computes the pre-order listing. -/
theorem fetch_ids_allOk (p : IdPage) (d : Nat) (h : p.allOk = true) :
    fetch_page_ids_recursively p d = p.preorder := by
  cases p with
  | mk pid ok children =>
    simp only [IdPage.allOk, Bool.and_eq_true] at h
    simp [fetch_page_ids_recursively, IdPage.preorder, h.1,
      fetch_ids_children_allOk children (d + 1) h.2]

/-- On error-free subtrees the id dumper's child loop concatenates the
pre-order listings. -/
theorem fetch_ids_children_allOk (cs : List IdPage) (d : Nat)
    (h : allOkChildren cs = true) : fetch_ids_children cs d = preorderChildren cs := by
  cases cs with
  | nil => rfl
  | cons c rest =>
    simp only [allOkChildren, Bool.and_eq_true] at h
    simp [fetch_ids_children, preorderChildren, fetch_ids_allOk c d h.1,
      fetch_ids_children_allOk rest d h.2]
end

/-- C10: when no transport error occurs in the subtree,
`fetch_page_ids_recursively` returns the requested page id followed by the
ids of all descendant pages in depth-first pre-order (children in
service-returned order); on a transport error for the requested page itself
it returns the empty list. -/
theorem page_ids_preorder (p : IdPage) (d : Nat) :
    (p.allOk = true → fetch_page_ids_recursively p d = p.preorder) ∧
    (p.ok = false → fetch_page_ids_recursively p d = []) := by
  refine ⟨fun h => fetch_ids_allOk p d h, fun h => ?_⟩
  cases p with
  | mk pid ok children =>
    simp only [IdPage.ok] at h
    simp [fetch_page_ids_recursively, h]

/-- Witness for C10: an error-free two-child tree lists ids in pre-order, and
a failing root returns the empty list. -/
theorem page_ids_preorder_witness :
    fetch_page_ids_recursively
        (.mk "1" true [IdPage.mk "2" true [IdPage.mk "3" true []], IdPage.mk "4" true []]) 0 =
      (IdPage.mk "1" true [IdPage.mk "2" true [IdPage.mk "3" true []],
        IdPage.mk "4" true []]).preorder ∧
    fetch_page_ids_recursively (.mk "5" false [IdPage.mk "6" true []]) 0 = [] :=
  ⟨(page_ids_preorder
      (.mk "1" true [IdPage.mk "2" true [IdPage.mk "3" true []], IdPage.mk "4" true []]) 0).1
      (by decide),
   (page_ids_preorder (.mk "5" false [IdPage.mk "6" true []]) 0).2 rfl⟩

/-! ### The Index Builder (C8) -/

mutual
/-- Rendering as described by claim C8's words, target taken literally as
"the entry's allocated primary file path": an anchor whose display text is
the title and whose target is the file path, followed — when the entry has
children — by a nested list with one rendered item per child in order. -/
def index_render_claim : PathEntry → String
  | .mk file_path page_title child_pages =>
    "<a href=\"" ++ file_path ++ "\">" ++ page_title ++ "</a>" ++
      (if child_pages.isEmpty then ""
       else "<ul>\n" ++ index_render_claim_items child_pages ++ "</ul>\n")

/-- One rendered `<li>` item per child, in the child list's order. -/
def index_render_claim_items : List PathEntry → String
  | [] => ""
  | c :: rest => "\t<li>" ++ index_render_claim c ++ "</li>\n" ++ index_render_claim_items rest
end

mutual
/-- Claim C8 amended: identical rendering, except that the anchor target is
the percent-encoded (and sanitizer-filtered) form of the entry's allocated
primary file path, not the raw path. -/
def index_render_amended : PathEntry → String
  | .mk file_path page_title child_pages =>
    "<a href=\"" ++ sanitize_for_filename (encode_url file_path) ++ "\">" ++ page_title ++
      "</a>" ++
      (if child_pages.isEmpty then ""
       else "<ul>\n" ++ index_render_amended_items child_pages ++ "</ul>\n")

/-- One rendered `<li>` item per child, in the child list's order. -/
def index_render_amended_items : List PathEntry → String
  | [] => ""
  | c :: rest =>
    "\t<li>" ++ index_render_amended c ++ "</li>\n" ++ index_render_amended_items rest
end

mutual
/-- The Index Builder realizes the amended rendering on every Path Entry. -/
theorem create_index_eq_amended (e : PathEntry) :
    create_html_index e = index_render_amended e := by
  cases e with
  | mk fp t children =>
    cases children with
    | nil => simp [create_html_index, index_render_amended]
    | cons c rest =>
      have hlit : ∀ x : String, "</a>" ++ ("<ul>\n" ++ x) = "</a><ul>\n" ++ x := fun x => by
        rw [← String.append_assoc]; exact congrArg (· ++ x) rfl
      simp [create_html_index, index_render_amended,
        create_index_children_eq_amended (c :: rest), String.append_assoc, hlit]

/-- The Index Builder's child loop realizes the amended item rendering. -/
theorem create_index_children_eq_amended (l : List PathEntry) :
    create_html_index_children l = index_render_amended_items l := by
  cases l with
  | nil => rfl
  | cons c rest =>
    simp [create_html_index_children, index_render_amended_items,
      create_index_eq_amended c, create_index_children_eq_amended rest]
end

/-- C8 counterexample: for the leaf entry with allocated file path
`"A B.html"`, the Index Builder's anchor target is the percent-encoded
`"A%20B.html"`, not the raw file path — the rendering the claim describes is
not what the code produces. -/
theorem index_target_counterexample :
    create_html_index (.mk "A B.html" "T" []) ≠ index_render_claim (.mk "A B.html" "T" []) := by
  decide

/-- C8 amended: the Index Builder renders each entry as an anchor whose
display text is the entry's title and whose target is the percent-encoded
(sanitizer-filtered) form of the entry's allocated primary file path; an
entry with children is followed immediately by a nested list containing one
rendered item per child in the order of the entry's child list, and a leaf
entry renders as a bare anchor with no list. -/
theorem index_renders_spec (e : PathEntry) :
    create_html_index e = index_render_amended e :=
  create_index_eq_amended e

/-! ### Substring and encoding lemmas for the Link Rewriter claims -/

/-- `String.append` acts as list append on the character data. -/
theorem data_append (s t : String) : (s ++ t).data = s.data ++ t.data := rfl

/-- Every list is an initial segment of itself followed by anything. -/
theorem startsWithL_append (l m : List Char) : startsWithL l (l ++ m) = true := by
  induction l with
  | nil => rfl
  | cons c rest ih => simp [startsWithL, ih]

/-- Dropping the length of the first summand of an append returns the second. -/
theorem dropLenAppend (l m : List Char) : (l ++ m).drop l.length = m := by
  induction l with
  | nil => rfl
  | cons c rest ih =>
    simp only [List.cons_append, List.length_cons, List.drop_succ_cons]
    exact ih

/-- Splitting at a pattern that sits at the very front. -/
theorem splitFirst_append_self (p m : List Char) (hp : p ≠ []) :
    splitFirst p (p ++ m) = some ([], m) := by
  cases p with
  | nil => exact absurd rfl hp
  | cons q qs =>
    show splitFirst (q :: qs) (q :: (qs ++ m)) = some ([], m)
    have hsw : startsWithL (q :: qs) (q :: (qs ++ m)) = true :=
      startsWithL_append (q :: qs) m
    have hdrop : (q :: (qs ++ m)).drop (q :: qs).length = m :=
      dropLenAppend (q :: qs) m
    simp [splitFirst, hsw, hdrop]

/-- A prefix check only succeeds when every pattern character occurs. -/
theorem startsWithL_mem (p s : List Char) (h : startsWithL p s = true) :
    ∀ c ∈ p, c ∈ s := by
  induction p generalizing s with
  | nil => simp
  | cons q qs ih =>
    cases s with
    | nil => simp [startsWithL] at h
    | cons x xs =>
      simp only [startsWithL, Bool.and_eq_true, beq_iff_eq] at h
      intro c hc
      rcases List.mem_cons.mp hc with rfl | hc'
      · exact h.1 ▸ List.mem_cons_self _ _
      · exact List.mem_cons_of_mem _ (ih xs h.2 c hc')

/-- A pattern containing a character absent from the text never occurs. -/
theorem splitFirst_none_of_missing (p s : List Char) (c : Char) (hp : c ∈ p)
    (hs : c ∉ s) : splitFirst p s = none := by
  induction s with
  | nil => rfl
  | cons x xs ih =>
    have hsw : startsWithL p (x :: xs) = false := by
      cases hw : startsWithL p (x :: xs) with
      | false => rfl
      | true => exact absurd (startsWithL_mem p (x :: xs) hw c hp) hs
    have hxs : c ∉ xs := fun h => hs (List.mem_cons_of_mem _ h)
    simp [splitFirst, hsw, ih hxs]

/-- When the pattern does not occur, any fuel yields the unsplit text. -/
theorem splitOnLFuel_of_none (pat s : List Char) (h : splitFirst pat s = none) :
    ∀ fuel, splitOnLFuel fuel pat s = [s] := by
  intro fuel
  cases fuel with
  | zero => rfl
  | succ f => simp [splitOnLFuel, h]

/-- Splitting a text that is the pattern followed by pattern-free remainder. -/
theorem splitOnL_marker_append (pat rest : List Char) (hp : pat ≠ [])
    (hnone : splitFirst pat rest = none) : splitOnL pat (pat ++ rest) = [[], rest] := by
  unfold splitOnL
  have hlen : (pat ++ rest).length + 1 = (pat ++ rest).length + 1 := rfl
  cases hfuel : (pat ++ rest).length + 1 with
  | zero => simp at hfuel
  | succ f =>
    simp [splitOnLFuel, splitFirst_append_self pat rest hp,
      splitOnLFuel_of_none pat rest hnone]

/-- Hexadecimal digit characters are never `'?'`. -/
theorem hexDigitChar_ne_qmark (n : Nat) : hexDigitChar n ≠ '?' := by
  unfold hexDigitChar
  split <;> decide

/-- The percent-encoding of a single character never contains `'?'`. -/
theorem qmark_not_mem_encode_char (c : Char) : '?' ∉ (encode_char c).data := by
  intro hmem
  unfold encode_char at hmem
  by_cases hsafe : safeChar c = true
  · rw [if_pos hsafe] at hmem
    have hm : ('?' : Char) ∈ [c] := hmem
    have hq : ('?' : Char) = c := by simpa using hm
    rw [← hq] at hsafe
    exact absurd hsafe (by decide)
  · rw [if_neg hsafe] at hmem
    have hm : ('?' : Char) ∈ ['%', hexDigitChar (c.toNat / 16 % 16), hexDigitChar (c.toNat % 16)] :=
      hmem
    simp only [List.mem_cons, List.not_mem_nil, or_false] at hm
    rcases hm with h | h | h
    · exact absurd h (by decide)
    · exact hexDigitChar_ne_qmark _ h.symm
    · exact hexDigitChar_ne_qmark _ h.symm

/-- The percent-encoded form of a string never contains `'?'`. -/
theorem qmark_not_mem_encodeChars (l : List Char) : '?' ∉ (encodeChars l).data := by
  induction l with
  | nil => simp [encodeChars]
  | cons c rest ih =>
    simp only [encodeChars, data_append, List.mem_append]
    rintro (h | h)
    · exact qmark_not_mem_encode_char c h
    · exact ih h

/-- The second rewriting pass never matches a percent-encoded href (the id
marker contains `'?'`, which percent-encoding always escapes). -/
theorem rewritePageIdAnchor_encoded (x : String) (cl : Option String) :
    rewritePageIdAnchor (Anchor.mk (encode_url x) cl) = Anchor.mk (encode_url x) cl := by
  have hnone : splitFirst pageid_marker.data (encode_url x).data = none :=
    splitFirst_none_of_missing _ _ '?' (by decide) (qmark_not_mem_encodeChars x.data)
  simp [rewritePageIdAnchor, containsSubstr, hnone]

/-- First pass on one anchor when both guards hold. -/
theorem rewriteDisplayAnchor_pos (a : Anchor) (s : Scope)
    (h1 : containsSubstr a.href display_marker = true) (h2 : classAbsent a = true) :
    rewriteDisplayAnchor a s =
      (Anchor.mk (encode_url (provide_unique_file_name s
          (decode_url (replace_plus_with_space (getDisplayTitleSegment a.href))) false
          (some "html")).1) a.cls,
       (provide_unique_file_name s
          (decode_url (replace_plus_with_space (getDisplayTitleSegment a.href))) false
          (some "html")).2) := by
  simp [rewriteDisplayAnchor, h1, h2]

/-- First pass on one anchor whose href lacks the display marker. -/
theorem rewriteDisplayAnchor_neg (a : Anchor) (s : Scope)
    (h : containsSubstr a.href display_marker = false) :
    rewriteDisplayAnchor a s = (a, s) := by
  simp [rewriteDisplayAnchor, h]

/-- The first pass processes an appended anchor list left to right. -/
theorem rewriteDisplayAnchors_append (l1 l2 : List Anchor) (s : Scope) :
    rewriteDisplayAnchors (l1 ++ l2) s =
      ((rewriteDisplayAnchors l1 s).1 ++
         (rewriteDisplayAnchors l2 (rewriteDisplayAnchors l1 s).2).1,
       (rewriteDisplayAnchors l2 (rewriteDisplayAnchors l1 s).2).2) := by
  induction l1 generalizing s with
  | nil => simp [rewriteDisplayAnchors]
  | cons a rest ih => simp [rewriteDisplayAnchors, ih]

/-- The sanitizer keeps digit characters. -/
theorem sanChar_digit (c : Char) (h : c.isDigit = true) : sanChar c = c := by
  unfold sanChar
  split
  · rename_i hmem
    exfalso
    simp only [illegalChars, List.mem_cons, List.not_mem_nil, or_false] at hmem
    rcases hmem with rfl | rfl | rfl | rfl | rfl | rfl | rfl | rfl | rfl <;>
      exact absurd h (by decide)
  · rfl

/-- The sanitizer keeps all-digit character lists. -/
theorem san_digits (l : List Char) (h : ∀ c ∈ l, c.isDigit = true) :
    l.map sanChar = l := by
  induction l with
  | nil => rfl
  | cons c rest ih =>
    rw [List.map_cons, sanChar_digit c (h c (List.mem_cons_self c rest)),
      ih (fun d hd => h d (List.mem_cons_of_mem c hd))]

/-- Digits are safe under percent-encoding. -/
theorem safeChar_digit (c : Char) (h : c.isDigit = true) : safeChar c = true := by
  unfold safeChar
  simp [Char.isAlphanum, h]

/-- Percent-encoding keeps an all-safe character list unchanged. -/
theorem encodeChars_safe (l : List Char) (h : ∀ c ∈ l, safeChar c = true) :
    encodeChars l = String.mk l := by
  induction l with
  | nil => rfl
  | cons c rest ih =>
    show encode_char c ++ encodeChars rest = String.mk (c :: rest)
    unfold encode_char
    rw [if_pos (h c (List.mem_cons_self c rest)),
      ih (fun d hd => h d (List.mem_cons_of_mem c hd))]
    rfl

/-- Percent-encoding distributes over list append. -/
theorem encodeChars_append (l1 l2 : List Char) :
    encodeChars (l1 ++ l2) = encodeChars l1 ++ encodeChars l2 := by
  induction l1 with
  | nil => rfl
  | cons c rest ih =>
    show encode_char c ++ encodeChars (rest ++ l2) =
      encode_char c ++ encodeChars rest ++ encodeChars l2
    rw [ih, String.append_assoc]

/-- The second pass rewrites an id-form href `marker ++ n` (digit-only id
`n`, no class attribute) to exactly `n ++ ".html"`. -/
theorem rewritePageIdAnchor_marker (n : String) (cl : Option String)
    (hcls : classAbsent (Anchor.mk (pageid_marker ++ n) cl) = true)
    (hdig : ∀ c ∈ n.data, c.isDigit = true) :
    rewritePageIdAnchor (Anchor.mk (pageid_marker ++ n) cl) =
      Anchor.mk (n ++ ".html") cl := by
  have hqn : ('?' : Char) ∉ n.data := fun hm => absurd (hdig '?' hm) (by decide)
  have hnone : splitFirst pageid_marker.data n.data = none :=
    splitFirst_none_of_missing _ _ '?' (by decide) hqn
  have hdata : (pageid_marker ++ n).data = pageid_marker.data ++ n.data := rfl
  have hcontains : containsSubstr (pageid_marker ++ n) pageid_marker = true := by
    unfold containsSubstr
    rw [hdata, splitFirst_append_self _ _ (by decide)]
    rfl
  have hsplit : splitOnStr (pageid_marker ++ n) pageid_marker = ["", n] := by
    unfold splitOnStr
    rw [hdata, splitOnL_marker_append _ _ (by decide) hnone]
    rfl
  have hsan : sanitize_for_filename n = n := by
    unfold sanitize_for_filename
    rw [san_digits n.data hdig]
  have henc : encode_url (n ++ ".html") = n ++ ".html" := by
    unfold encode_url
    rw [show (n ++ ".html").data = n.data ++ (".html" : String).data from rfl,
      encodeChars_append, encodeChars_safe n.data (fun c hc => safeChar_digit c (hdig c hc))]
    rfl
  simp [rewritePageIdAnchor, hcontains, hcls, hsplit, hsan, henc]

/-- An id-form href contains no `"/display/"` marker (the marker's `'y'`
occurs neither in the id marker nor among digits). -/
theorem pageid_href_no_display (n : String) (hdig : ∀ c ∈ n.data, c.isDigit = true) :
    containsSubstr (pageid_marker ++ n) display_marker = false := by
  have hy : ('y' : Char) ∉ (pageid_marker ++ n).data := by
    rw [show (pageid_marker ++ n).data = pageid_marker.data ++ n.data from rfl]
    intro hm
    rcases List.mem_append.mp hm with h | h
    · exact absurd h (by decide)
    · exact absurd (hdig 'y' h) (by decide)
  unfold containsSubstr
  rw [splitFirst_none_of_missing _ _ 'y' (by decide) hy]
  rfl

/-- C5: for every hyperlink element without a class attribute whose href has
the id form `"/pages/viewpage.action?pageId=" ++ n` (digit-only id `n`), the
Link Rewriter rewrites its target to `n ++ ".html"` without consulting the
Name Allocator (the naming scope threads past this anchor unchanged),
regardless of that node's title or whether that node has been visited. -/
theorem pageid_link_rewrite (pre post : List Anchor) (cl : Option String) (n : String)
    (s : Scope) (hcls : classAbsent (Anchor.mk (pageid_marker ++ n) cl) = true)
    (hdig : ∀ c ∈ n.data, c.isDigit = true) :
    handle_html_references (.parsed (pre ++ Anchor.mk (pageid_marker ++ n) cl :: post)) s =
      (.parsed ((rewriteDisplayAnchors pre s).1.map rewritePageIdAnchor ++
         Anchor.mk (n ++ ".html") cl ::
           (rewriteDisplayAnchors post
             (rewriteDisplayAnchors pre s).2).1.map rewritePageIdAnchor),
       (rewriteDisplayAnchors post (rewriteDisplayAnchors pre s).2).2, 0) := by
  have hdisp := pageid_href_no_display n hdig
  have hmid := rewritePageIdAnchor_marker n cl hcls hdig
  have hneg : ∀ s', rewriteDisplayAnchor (Anchor.mk (pageid_marker ++ n) cl) s' =
      (Anchor.mk (pageid_marker ++ n) cl, s') :=
    fun s' => rewriteDisplayAnchor_neg (Anchor.mk (pageid_marker ++ n) cl) s' hdisp
  simp [handle_html_references, rewriteDisplayAnchors_append, rewriteDisplayAnchors,
    hneg, hmid]

/-- Witness for C5: the single anchor `"/pages/viewpage.action?pageId=123"`
with no class attribute rewrites to `"123.html"` from the empty scope. -/
theorem pageid_link_rewrite_witness :
    handle_html_references
        (.parsed ([] ++ Anchor.mk (pageid_marker ++ "123") none :: [])) Scope.empty =
      (.parsed ((rewriteDisplayAnchors [] Scope.empty).1.map rewritePageIdAnchor ++
         Anchor.mk ("123" ++ ".html") none ::
           (rewriteDisplayAnchors []
             (rewriteDisplayAnchors [] Scope.empty).2).1.map rewritePageIdAnchor),
       (rewriteDisplayAnchors [] (rewriteDisplayAnchors [] Scope.empty).2).2, 0) :=
  pageid_link_rewrite [] [] none "123" Scope.empty rfl (by decide)

/-- C4 counterexample: the claim says the Link Rewriter percent-decodes the
title segment and then replaces `'+'` with spaces.  The code applies the two
steps in the opposite order, and on the title segment `"A%2BB"` of
`"/display/SPACE/A%2BB"` the orders disagree: the code produces the href
`"A%2BB.html"` (title `"A+B"`), while the claim's order would produce
`"A%20B.html"` (title `"A B"`). -/
theorem display_link_rewrite_order_counterexample :
    getDisplayTitleSegment "/display/SPACE/A%2BB" = "A%2BB" ∧
    handle_html_references (.parsed [Anchor.mk "/display/SPACE/A%2BB" none]) Scope.empty =
      (.parsed [Anchor.mk "A%2BB.html" none], ⟨[("A+B", 0)], [("A+B", "A+B.html")]⟩, 0) ∧
    encode_url ((provide_unique_file_name Scope.empty
        (replace_plus_with_space (decode_url "A%2BB")) false (some "html")).1) =
      "A%20B.html" ∧
    ("A%2BB.html" : String) ≠ "A%20B.html" := by
  decide

/-- C4 amended: for every hyperlink element without a class attribute whose
href contains the `"/display/"` marker, the Link Rewriter extracts the title
segment, replaces `'+'` separators with spaces, then percent-decodes the
result, and rewrites the href to the percent-encoded file name that the Name
Allocator returns for that decoded title with explicit extension `"html"`
(in the scope reached after the anchors to its left), even if the target
page has not yet been visited in the traversal. -/
theorem display_link_rewrite (pre post : List Anchor) (a : Anchor) (s : Scope)
    (h1 : containsSubstr a.href display_marker = true) (h2 : classAbsent a = true) :
    handle_html_references (.parsed (pre ++ a :: post)) s =
      (.parsed ((rewriteDisplayAnchors pre s).1.map rewritePageIdAnchor ++
         Anchor.mk (encode_url (provide_unique_file_name (rewriteDisplayAnchors pre s).2
             (decode_url (replace_plus_with_space (getDisplayTitleSegment a.href))) false
             (some "html")).1) a.cls ::
           (rewriteDisplayAnchors post
             (provide_unique_file_name (rewriteDisplayAnchors pre s).2
               (decode_url (replace_plus_with_space (getDisplayTitleSegment a.href))) false
               (some "html")).2).1.map rewritePageIdAnchor),
       (rewriteDisplayAnchors post
         (provide_unique_file_name (rewriteDisplayAnchors pre s).2
           (decode_url (replace_plus_with_space (getDisplayTitleSegment a.href))) false
           (some "html")).2).2, 0) := by
  simp [handle_html_references, rewriteDisplayAnchors_append, rewriteDisplayAnchors,
    rewriteDisplayAnchor_pos a _ h1 h2, rewritePageIdAnchor_encoded]

/-- Witness for C4 at the anchor `"/display/SPACE/Page+Title"` with no class
attribute, from the empty scope. -/
theorem display_link_rewrite_witness :
    handle_html_references
        (.parsed ([] ++ Anchor.mk "/display/SPACE/Page+Title" none :: [])) Scope.empty =
      (.parsed ((rewriteDisplayAnchors [] Scope.empty).1.map rewritePageIdAnchor ++
         Anchor.mk (encode_url (provide_unique_file_name
             (rewriteDisplayAnchors [] Scope.empty).2
             (decode_url (replace_plus_with_space
               (getDisplayTitleSegment (Anchor.mk "/display/SPACE/Page+Title" none).href)))
             false (some "html")).1) (Anchor.mk "/display/SPACE/Page+Title" none).cls ::
           (rewriteDisplayAnchors []
             (provide_unique_file_name (rewriteDisplayAnchors [] Scope.empty).2
               (decode_url (replace_plus_with_space
                 (getDisplayTitleSegment (Anchor.mk "/display/SPACE/Page+Title" none).href)))
               false (some "html")).2).1.map rewritePageIdAnchor),
       (rewriteDisplayAnchors []
         (provide_unique_file_name (rewriteDisplayAnchors [] Scope.empty).2
           (decode_url (replace_plus_with_space
             (getDisplayTitleSegment (Anchor.mk "/display/SPACE/Page+Title" none).href)))
           false (some "html")).2).2, 0) :=
  display_link_rewrite [] [] (Anchor.mk "/display/SPACE/Page+Title" none) Scope.empty
    (by decide) rfl

end ConfluenceDumper
